import Mathlib

/-!
# Verification of the verdant-EcoSystem numeric backend

Shallow embedding of the two C engines in
`src/backend/c_modules/backend_ai.c` (customer segmentation, a damped
k-means with k = 4) and `src/backend/c_modules/backend_logistics.c`
(2-opt route optimization), together with proofs of the spec's claims.

Modelling conventions:
* C `int` values become `ℤ`; real-valued quantities become `ℚ` (exact
  arithmetic in place of IEEE `float`/`double`).
* The C `euclidean_distance` returns `sqrtf(dx*dx + dy*dy)` and is used
  by the segmentation engine only inside order comparisons (argmin scan,
  max tracking, threshold test).  Since `sqrt` is strictly monotone on
  nonnegative operands, every such comparison is equivalent to the same
  comparison of SQUARED distances; we therefore carry squared distances
  (`euclidean_dist_sq`) and square the thresholds (`0.01` becomes
  `1/10000`).
* The route optimizer sums square roots, which irrational values an
  executable embedding cannot carry; its development is therefore
  parametric in the node-to-node distance function
  `d : ℕ → ℕ → ℚ` (node index to node index), which preserves the
  source's control flow exactly for every instantiation.
* Null pointers become `Option`/`Bool` flags; `calloc`/`malloc` failure
  becomes an explicit `allocOk : Bool` parameter.
* Fixed-size C loops over the 4 clusters are written as folds over the
  explicit index list.
-/

/-! ## Segmentation engine (backend_ai.c) -/

/-- Squared Euclidean distance.  The source's `euclidean_distance`
returns the square root of this quantity; all of its uses in
`backend_ai.c` are order comparisons, which are preserved by squaring. -/
def euclidean_dist_sq (x1 y1 x2 y2 : ℚ) : ℚ :=
  let dx := x1 - x2
  let dy := y1 - y2
  dx * dx + dy * dy

/-- Initial centroid state (`static float centroids[4][2]` in
`backend_ai.c`): index 0 = Bronze, 1 = Silver, 2 = Gold, 3 = Titanium. -/
def centroids_init : Fin 4 → ℚ × ℚ := fun k =>
  match k with
  | 0 => (30, 30)
  | 1 => (150, 30)
  | 2 => (30, 500)
  | 3 => (500, 1000)

/-- `static const char* cluster_names[4]` in `backend_ai.c`: the frozen
index-to-name mapping. -/
def cluster_names : Fin 4 → String := fun k =>
  match k with
  | 0 => "Bronze"
  | 1 => "Silver"
  | 2 => "Gold"
  | 3 => "Titanium"

/-- `calculate_churn_risk` from `backend_ai.c`: a step function of the
wallet balance alone. -/
def calculate_churn_risk (wallet_balance : ℤ) : ℚ :=
  if wallet_balance < 50 then 85
  else if wallet_balance < 200 then 55
  else if wallet_balance < 500 then 25
  else 5

/-- One step of the inner scan of `assign_clusters`: the loop body over
`k = 1..3` that replaces the running best cluster only on strictly
smaller distance. -/
def scan_step (x y : ℚ) (cent : Fin 4 → ℚ × ℚ) (acc : Fin 4 × ℚ) (k : Fin 4) :
    Fin 4 × ℚ :=
  let d := euclidean_dist_sq x y (cent k).1 (cent k).2
  if d < acc.2 then (k, d) else acc

/-- The per-observation part of `assign_clusters`: a linear scan over the
4 centroids, starting at cluster 0, updating only on strictly smaller
distance. -/
def best_cluster (x y : ℚ) (cent : Fin 4 → ℚ × ℚ) : Fin 4 :=
  (([1, 2, 3] : List (Fin 4)).foldl (scan_step x y cent)
    (0, euclidean_dist_sq x y (cent 0).1 (cent 0).2)).1

/-- `assign_clusters` from `backend_ai.c`: recomputes every observation's
assignment and reports whether any assignment changed.  The C loop writes
`best_cluster` into `assignments[i]` whenever it differs from the stored
value, so the resulting array is the map of `best_cluster` over the
observations and `changed` is the elementwise comparison with the old
array. -/
def assign_clusters (obs : List (ℤ × ℤ)) (cent : Fin 4 → ℚ × ℚ)
    (old : List (Fin 4)) : Bool × List (Fin 4) :=
  let new := obs.map (fun p => best_cluster (p.1 : ℚ) (p.2 : ℚ) cent)
  ((old.zip new).any (fun q => q.1 ≠ q.2), new)

/-- The body of the accumulation loop of `update_centroids`: add the
observation's coordinates to its cluster's running sums and bump the
cluster's member count. -/
def accum_step (acc : (Fin 4 → ℚ × ℚ) × (Fin 4 → ℕ)) (p : (ℤ × ℤ) × Fin 4) :
    (Fin 4 → ℚ × ℚ) × (Fin 4 → ℕ) :=
  (Function.update acc.1 p.2
      ((acc.1 p.2).1 + (p.1.1 : ℚ), (acc.1 p.2).2 + (p.1.2 : ℚ)),
    Function.update acc.2 p.2 (acc.2 p.2 + 1))

/-- The accumulation loop of `update_centroids`: per-cluster coordinate
sums and member counts over the observation/assignment pairs. -/
def cluster_accum (l : List ((ℤ × ℤ) × Fin 4)) :
    (Fin 4 → ℚ × ℚ) × (Fin 4 → ℕ) :=
  l.foldl accum_step (fun _ => ((0 : ℚ), (0 : ℚ)), fun _ => (0 : ℕ))

/-- `update_centroids` from `backend_ai.c`: each centroid with at least
one member moves to `0.7 * mean + 0.3 * old`; empty centroids do not
move.  Returns the squared maximum movement together with the new
centroid state.  (The C code tracks the maximum of the unsquared
movements starting from `0.0`; taking the maximum of the squares is
equivalent since all movements are nonnegative, and skipped clusters
contribute `0` either way.) -/
def update_centroids (obs : List (ℤ × ℤ)) (assign : List (Fin 4))
    (cent : Fin 4 → ℚ × ℚ) : ℚ × (Fin 4 → ℚ × ℚ) :=
  let acc := cluster_accum (obs.zip assign)
  let newCent : Fin 4 → ℚ × ℚ := fun k =>
    if acc.2 k ≠ 0 then
      let nx := (acc.1 k).1 / (acc.2 k : ℚ)
      let ny := (acc.1 k).2 / (acc.2 k : ℚ)
      (7/10 * nx + 3/10 * (cent k).1, 7/10 * ny + 3/10 * (cent k).2)
    else cent k
  let m2 := (([0, 1, 2, 3] : List (Fin 4)).map
    (fun k => euclidean_dist_sq (cent k).1 (cent k).2
      (newCent k).1 (newCent k).2)).foldl max 0
  (m2, newCent)

/-- The `while (iteration < MAX_ITERATIONS && !converged)` loop of
`perform_clustering`, with `MAX_ITERATIONS = 50` supplied as fuel.
Each round assigns, then updates, then stops when no assignment changed
or the maximum movement fell below `0.01` (squared: `1/10000`). -/
def kmeans_loop (obs : List (ℤ × ℤ)) :
    ℕ → (Fin 4 → ℚ × ℚ) → List (Fin 4) → (Fin 4 → ℚ × ℚ) × List (Fin 4)
  | 0, cent, a => (cent, a)
  | fuel + 1, cent, a =>
    if ¬(assign_clusters obs cent a).1 ∨
        (update_centroids obs (assign_clusters obs cent a).2 cent).1
          < 1/10000 then
      ((update_centroids obs (assign_clusters obs cent a).2 cent).2,
        (assign_clusters obs cent a).2)
    else
      kmeans_loop obs fuel
        (update_centroids obs (assign_clusters obs cent a).2 cent).2
        (assign_clusters obs cent a).2

/-- The observations actually assigned to cluster `k` (observation
paired with its assignment), the notion the spec's "arithmetic mean
position of its assigned observations" ranges over. -/
def assigned_obs (obs : List (ℤ × ℤ)) (assign : List (Fin 4)) (k : Fin 4) :
    List ((ℤ × ℤ) × Fin 4) :=
  (obs.zip assign).filter (fun p => p.2 = k)

/-- Arithmetic mean position of the observations assigned to `k`
(meaningful only when some observation is assigned). -/
def cluster_mean (obs : List (ℤ × ℤ)) (assign : List (Fin 4)) (k : Fin 4) :
    ℚ × ℚ :=
  let l := assigned_obs obs assign k
  ((l.map fun p => (p.1.1 : ℚ)).sum / l.length,
   (l.map fun p => (p.1.2 : ℚ)).sum / l.length)

/-- One serialized segmentation record
`{"x":..,"y":..,"cluster":"..","churn":..}`. -/
structure ClusterRecord where
  x : ℤ
  y : ℤ
  cluster : String
  churn : ℚ
deriving DecidableEq, Inhabited

/-- The record emitted for one observation/assignment pair: coordinates,
tier name through the frozen `cluster_names` mapping, and churn risk
from the wallet balance alone. -/
def mk_record (p : (ℤ × ℤ) × Fin 4) : ClusterRecord :=
  { x := p.1.1, y := p.1.2, cluster := cluster_names p.2,
    churn := calculate_churn_risk p.1.2 }

/-- All records of a call, one per observation, in input order. -/
def records_of (obs : List (ℤ × ℤ)) (assign : List (Fin 4)) :
    List ClusterRecord :=
  (obs.zip assign).map mk_record

/-- `%.1f` rendering for the churn value.  All churn values are exact
nonnegative multiples of one tenth, on which this agrees with C's
`%.1f`. -/
def fmt1 (q : ℚ) : String :=
  let t : ℤ := (q * 10).num / ((q * 10).den : ℤ)
  toString (t / 10) ++ "." ++ toString (t % 10)

/-- The serialized text of one record, as produced by the `snprintf`
format string in `perform_clustering`. -/
def record_json (r : ClusterRecord) : String :=
  "\x7b\"x\":" ++ toString r.x ++ ",\"y\":" ++ toString r.y ++
    ",\"cluster\":\"" ++ r.cluster ++ "\",\"churn\":" ++ fmt1 r.churn ++ "\x7d"

/-- The record-emission loop of `perform_clustering`: a record is
emitted only while the running offset stays below `buffer_size - 150`
and its serialized text still fits; a separating comma (one byte of
offset) follows every record that is not the last one, when it fits.
Returns the list of records that were actually serialized. -/
def emit_records (bufSize : ℤ) : List ClusterRecord → ℤ → List ClusterRecord
  | [], _ => []
  | r :: rest, offset =>
    if offset < bufSize - 150 then
      if ((record_json r).length : ℤ) < bufSize - offset then
        r :: emit_records bufSize rest
          (if ¬rest.isEmpty ∧
              offset + ((record_json r).length : ℤ) < bufSize - 2 then
            offset + ((record_json r).length : ℤ) + 1
          else offset + ((record_json r).length : ℤ))
      else []
    else []

/-- Serialized length (in bytes) of the records plus the separating
commas: the number of offset bytes `perform_clustering`'s emission loop
advances past the opening bracket when nothing is truncated. -/
def rest_len : List ClusterRecord → ℤ
  | [] => 0
  | r :: rest =>
    ((record_json r).length : ℤ) + (if rest.isEmpty then 0 else 1) + rest_len rest

/-- The observation list a segmentation call works on: the two input
arrays read pairwise, `count` entries. -/
def seg_obs (count : ℤ) (pts ws : List ℤ) : List (ℤ × ℤ) :=
  (pts.zip ws).take count.toNat

/-- Final centroid state and assignments of one segmentation call:
the k-means loop run with fuel 50 from the zero-initialized
(`calloc`) assignment array. -/
def seg_final (count : ℤ) (pts ws : List ℤ) (cent : Fin 4 → ℚ × ℚ) :
    (Fin 4 → ℚ × ℚ) × List (Fin 4) :=
  kmeans_loop (seg_obs count pts ws) 50 cent (List.replicate count.toNat 0)

/-- The full (untruncated) record sequence of one segmentation call. -/
def seg_records (count : ℤ) (pts ws : List ℤ) (cent : Fin 4 → ℚ × ℚ) :
    List ClusterRecord :=
  records_of (seg_obs count pts ws) (seg_final count pts ws cent).2

/-- `perform_clustering` from `backend_ai.c`.  Null pointers are `none`
/ `bufPresent = false`; `calloc` failure for the assignments array is
`allocOk = false`.  Returns the serialized payload (`none` when nothing
is written, `some rs` for the record array `[..]`) together with the
centroid state after the call. -/
def perform_clustering (count : ℤ) (points wallets : Option (List ℤ))
    (bufPresent : Bool) (bufSize : ℤ) (allocOk : Bool)
    (cent : Fin 4 → ℚ × ℚ) : Option (List ClusterRecord) × (Fin 4 → ℚ × ℚ) :=
  if count ≤ 0 ∨ points = none ∨ wallets = none ∨ bufPresent = false ∨
      bufSize < 100 then
    (if bufPresent = true ∧ 0 < bufSize then some [] else none, cent)
  else if allocOk = false then (some [], cent)
  else
    let pts := points.getD []
    let ws := wallets.getD []
    (some (emit_records bufSize (seg_records count pts ws cent) 1),
     (seg_final count pts ws cent).1)

/-! ## Route optimizer (backend_logistics.c)

The optimizer's `calculate_distance` is the Euclidean distance between
two nodes' coordinates; it is summed into tour distances, so squaring
does not commute with it.  The development is therefore parametric in
the node-to-node distance `d : ℕ → ℕ → ℚ` (indexed by node position in
the node array, which is also the node id assigned by
`generate_delivery_locations`).  This preserves the source's control
flow exactly for every instantiation. -/

/-- The consecutive-stop summation loop of `calculate_route_distance`. -/
def path_dist (d : ℕ → ℕ → ℚ) : List ℕ → ℚ
  | [] => 0
  | [_] => 0
  | a :: b :: rest => d a b + path_dist d (b :: rest)

/-- `calculate_route_distance` from `backend_logistics.c`: open walk
across the permutation plus the closing edge from the last stop back to
the first; `0` for fewer than two stops. -/
def calculate_route_distance (d : ℕ → ℕ → ℚ) (route : List ℕ) : ℚ :=
  if route.length < 2 then 0
  else path_dist d route + d (route.getLastD 0) (route.headD 0)

/-- `two_opt_swap` from `backend_logistics.c`: positions `< i` kept,
positions `i..j` reversed, positions `> j` kept. -/
def two_opt_swap (route : List ℕ) (i j : ℕ) : List ℕ :=
  route.take i ++ ((route.drop i).take (j + 1 - i)).reverse ++
    route.drop (j + 1)

/-- The body of the nearest-neighbor inner scan: keep the first
unvisited node, then replace it only on strictly smaller distance.
(`nearest = -1` with `min_dist = INFINITY` is modelled as `none`; every
actual distance is finite, so the first unvisited node always replaces
`none`, exactly as in the source.) -/
def nn_scan_step (d : ℕ → ℕ → ℚ) (current : ℕ) (visited : List ℕ)
    (acc : Option (ℕ × ℚ)) (j : ℕ) : Option (ℕ × ℚ) :=
  if j ∉ visited then
    match acc with
    | none => some (j, d current j)
    | some nm => if d current j < nm.2 then some (j, d current j) else acc
  else acc

/-- The inner scan of `initialize_route_nearest_neighbor`: nearest
not-yet-visited node among indices `1..count-1`, lowest index winning
ties.  The visited set is carried as the list of already-routed nodes,
which the source keeps in lockstep with its `visited` flags. -/
def nearest_unvisited (d : ℕ → ℕ → ℚ) (current : ℕ) (visited : List ℕ)
    (count : ℕ) : Option (ℕ × ℚ) :=
  ((List.range count).drop 1).foldl (nn_scan_step d current visited) none

/-- The greedy growth loop of `initialize_route_nearest_neighbor`:
append the nearest unvisited node `fuel` more times.  The `none` case
cannot arise while unvisited nodes remain (the source would store `-1`
there). -/
def nn_build (d : ℕ → ℕ → ℚ) (count : ℕ) : ℕ → List ℕ → List ℕ
  | 0, route => route
  | fuel + 1, route =>
    match nearest_unvisited d (route.getLastD 0) route count with
    | none => route
    | some nm => nn_build d count fuel (route ++ [nm.1])

/-- `initialize_route_nearest_neighbor` from `backend_logistics.c`:
start at the hub (index 0) and greedily append nearest unvisited nodes;
when the `visited` scratch allocation fails, fall back to the
sequential route `0, 1, ..., count-1`. -/
def initialize_route_nearest_neighbor (d : ℕ → ℕ → ℚ) (count : ℕ)
    (allocOk : Bool) : List ℕ :=
  if allocOk = false then List.range count
  else nn_build d count (count - 1) [0]

/-- The 2-opt working state: current tour, its distance (`best_distance`)
and the per-pass `improved` flag. -/
structure TwoOptState where
  route : List ℕ
  best : ℚ
  improved : Bool
deriving DecidableEq

/-- The body of the double loop of `optimize_route`: build the swapped
candidate, accept it when its distance beats the current best by more
than the `0.001` epsilon. -/
def try_swap (d : ℕ → ℕ → ℚ) (st : TwoOptState) (ij : ℕ × ℕ) :
    TwoOptState :=
  if calculate_route_distance d (two_opt_swap st.route ij.1 ij.2)
      < st.best - 1/1000 then
    { route := two_opt_swap st.route ij.1 ij.2,
      best := calculate_route_distance d (two_opt_swap st.route ij.1 ij.2),
      improved := true }
  else st

/-- The scan order of the double loop: `i` from 1 to `count - 2`, `j`
from `i + 1` to `count - 1`. -/
def swap_pairs (count : ℕ) : List (ℕ × ℕ) :=
  ((List.range (count - 1)).drop 1).flatMap
    (fun i => ((List.range count).drop (i + 1)).map (fun j => (i, j)))

/-- One full pass of `optimize_route`'s while body: clear `improved`,
then fold the accept-if-better step over all pairs, each accepted swap
taking effect immediately for the rest of the same pass. -/
def two_opt_pass (d : ℕ → ℕ → ℚ) (count : ℕ) (st : TwoOptState) :
    TwoOptState :=
  (swap_pairs count).foldl (try_swap d) { st with improved := false }

/-- The `while (improved && iteration < MAX_ITERATIONS)` loop of
`optimize_route`, with `MAX_ITERATIONS = 200` supplied as fuel; also
returns the number of passes executed (`iteration`). -/
def two_opt_loop (d : ℕ → ℕ → ℚ) (count : ℕ) :
    ℕ → TwoOptState → ℕ → TwoOptState × ℕ
  | 0, st, iter => (st, iter)
  | fuel + 1, st, iter =>
    if st.improved then
      two_opt_loop d count fuel (two_opt_pass d count st) (iter + 1)
    else (st, iter)

/-- The serialized result of `optimize_route`: nothing written (missing
or too-small output region), the error payload, or the
`total_distance` / `iterations` / `stops` payload, with stops given as
node indices (= node ids, as assigned by
`generate_delivery_locations`). -/
inductive RouteResult where
  | noop : RouteResult
  | error (msg : String) : RouteResult
  | ok (total : ℚ) (iterations : ℕ) (stops : List ℕ) : RouteResult
deriving DecidableEq

/-- The stop-count clamping of `optimize_route`: below 2 becomes the
default 5, above 100 is capped to 100. -/
def clamp_stops (num_stops : ℤ) : ℕ :=
  if num_stops < 2 then 5
  else if num_stops > 100 then 100
  else num_stops.toNat

/-- Nearest-neighbor initialization followed by the capped 2-opt loop,
starting from `improved = 1` and `iteration = 0`. -/
def route_phase (d : ℕ → ℕ → ℚ) (count : ℕ) (nnAllocOk : Bool) :
    TwoOptState × ℕ :=
  two_opt_loop d count 200
    { route := initialize_route_nearest_neighbor d count nnAllocOk,
      best := calculate_route_distance d
        (initialize_route_nearest_neighbor d count nnAllocOk),
      improved := true } 0

/-- `optimize_route` from `backend_logistics.c`.  A missing or
under-100-byte output region is a no-op; failure of any of the three
`malloc`s yields the error payload; otherwise the clamped stop count is
routed and the result serialized. -/
def optimize_route (d : ℕ → ℕ → ℚ) (num_stops : ℤ) (bufPresent : Bool)
    (bufSize : ℤ) (allocOk nnAllocOk : Bool) : RouteResult :=
  if bufPresent = false ∨ bufSize < 100 then RouteResult.noop
  else if allocOk = false then RouteResult.error "Memory allocation failed"
  else
    RouteResult.ok (route_phase d (clamp_stops num_stops) nnAllocOk).1.best
      (route_phase d (clamp_stops num_stops) nnAllocOk).2
      (route_phase d (clamp_stops num_stops) nnAllocOk).1.route

/-! ### Claims C4 and C2 -/

/-- C4: the churn-risk estimate is the fixed step function of
wallet_balance alone: `< 50 → 85`, `[50,200) → 55`, `[200,500) → 25`,
`≥ 500 → 5`; in particular wallet balances 10, 100, 600, 900 yield
85, 55, 5, 5.  (Independence of eco_score is by the type of
`calculate_churn_risk`, which consumes only the wallet balance; the
serialized record's churn field is `calculate_churn_risk` of the
observation's wallet entry, see `records_of`.) -/
theorem churn_risk_step_function (w : ℤ) :
    (w < 50 → calculate_churn_risk w = 85) ∧
    (50 ≤ w → w < 200 → calculate_churn_risk w = 55) ∧
    (200 ≤ w → w < 500 → calculate_churn_risk w = 25) ∧
    (500 ≤ w → calculate_churn_risk w = 5) ∧
    calculate_churn_risk 10 = 85 ∧ calculate_churn_risk 100 = 55 ∧
    calculate_churn_risk 600 = 5 ∧ calculate_churn_risk 900 = 5 := by
  unfold calculate_churn_risk
  refine ⟨fun h => ?_, fun h1 h2 => ?_, fun h1 h2 => ?_, fun h => ?_,
    by decide, by decide, by decide, by decide⟩ <;>
    split_ifs <;> first | rfl | omega

/-- Witness for `churn_risk_step_function`: concrete wallet balances in
each of the four bands. -/
theorem churn_risk_step_function_witness :
    calculate_churn_risk 10 = 85 ∧ calculate_churn_risk 100 = 55 ∧
    calculate_churn_risk 250 = 25 ∧ calculate_churn_risk 600 = 5 :=
  ⟨(churn_risk_step_function 10).1 (by decide),
   (churn_risk_step_function 100).2.1 (by decide) (by decide),
   (churn_risk_step_function 250).2.2.1 (by decide) (by decide),
   (churn_risk_step_function 600).2.2.2.1 (by decide)⟩

/-- C2: the cluster chosen by the assignment scan is at minimum
(squared, equivalently plain) Euclidean distance among the four
centroids, and on ties the lowest index wins: the chosen cluster's
distance is `≤` every centroid's distance, and strictly `<` the distance
of every centroid with a smaller index. -/
theorem best_cluster_is_argmin (x y : ℚ) (cent : Fin 4 → ℚ × ℚ) (k : Fin 4) :
    euclidean_dist_sq x y (cent (best_cluster x y cent)).1
        (cent (best_cluster x y cent)).2
      ≤ euclidean_dist_sq x y (cent k).1 (cent k).2 ∧
    (k < best_cluster x y cent →
      euclidean_dist_sq x y (cent (best_cluster x y cent)).1
          (cent (best_cluster x y cent)).2
        < euclidean_dist_sq x y (cent k).1 (cent k).2) := by
  simp only [best_cluster, scan_step, List.foldl]
  split_ifs <;> fin_cases k <;>
    dsimp only at * <;>
    simp only [Fin.zero_eta, Fin.mk_one, Fin.reduceFinMk] <;>
    refine ⟨by linarith, fun hk => ?_⟩ <;>
    first
      | exact absurd hk (by decide)
      | linarith

/-- Witness for `best_cluster_is_argmin`: the observation (500, 1000)
lies exactly on the Titanium centroid, so the scan chooses index 3 and
the tie-break hypothesis `0 < best` is concretely dischargeable. -/
theorem best_cluster_is_argmin_witness :
    euclidean_dist_sq 500 1000
        (centroids_init (best_cluster 500 1000 centroids_init)).1
        (centroids_init (best_cluster 500 1000 centroids_init)).2
      < euclidean_dist_sq 500 1000 (centroids_init 0).1 (centroids_init 0).2 :=
  (best_cluster_is_argmin 500 1000 centroids_init 0).2 (by with_unfolding_all decide)

/-! ### Centroid update: claims C3 and C9 -/

lemma euclidean_dist_sq_nonneg (x1 y1 x2 y2 : ℚ) :
    0 ≤ euclidean_dist_sq x1 y1 x2 y2 := by
  unfold euclidean_dist_sq
  dsimp only
  nlinarith [mul_self_nonneg (x1 - x2), mul_self_nonneg (y1 - y2)]

lemma euclidean_dist_sq_pos (x1 y1 x2 y2 : ℚ)
    (h : ((x1, y1) : ℚ × ℚ) ≠ (x2, y2)) :
    0 < euclidean_dist_sq x1 y1 x2 y2 := by
  unfold euclidean_dist_sq
  dsimp only
  by_cases hx : x1 = x2
  · have hy : y1 ≠ y2 := by
      intro hy
      exact h (by rw [hx, hy])
    nlinarith [mul_self_nonneg (x1 - x2), mul_self_pos.mpr (sub_ne_zero.mpr hy)]
  · nlinarith [mul_self_pos.mpr (sub_ne_zero.mpr hx), mul_self_nonneg (y1 - y2)]

/-- The accumulation fold computes, per cluster, the sum of the x
coordinates of exactly the pairs assigned to that cluster. -/
lemma cluster_accum_go_x (k : Fin 4) :
    ∀ (l : List ((ℤ × ℤ) × Fin 4)) (acc : (Fin 4 → ℚ × ℚ) × (Fin 4 → ℕ)),
    ((l.foldl accum_step acc).1 k).1
      = (acc.1 k).1 + ((l.filter fun p => p.2 = k).map fun p => (p.1.1 : ℚ)).sum
  | [], acc => by simp
  | p :: l, acc => by
    rw [List.foldl_cons, cluster_accum_go_x k l (accum_step acc p)]
    by_cases hp : p.2 = k
    · subst hp
      simp [accum_step, List.filter_cons]
      ring
    · simp [accum_step, Function.update_apply, hp, Ne.symm hp,
        List.filter_cons]

/-- As `cluster_accum_go_x`, for the y coordinates. -/
lemma cluster_accum_go_y (k : Fin 4) :
    ∀ (l : List ((ℤ × ℤ) × Fin 4)) (acc : (Fin 4 → ℚ × ℚ) × (Fin 4 → ℕ)),
    ((l.foldl accum_step acc).1 k).2
      = (acc.1 k).2 + ((l.filter fun p => p.2 = k).map fun p => (p.1.2 : ℚ)).sum
  | [], acc => by simp
  | p :: l, acc => by
    rw [List.foldl_cons, cluster_accum_go_y k l (accum_step acc p)]
    by_cases hp : p.2 = k
    · subst hp
      simp [accum_step, List.filter_cons]
      ring
    · simp [accum_step, Function.update_apply, hp, Ne.symm hp,
        List.filter_cons]

/-- As `cluster_accum_go_x`, for the member counts. -/
lemma cluster_accum_go_cnt (k : Fin 4) :
    ∀ (l : List ((ℤ × ℤ) × Fin 4)) (acc : (Fin 4 → ℚ × ℚ) × (Fin 4 → ℕ)),
    (l.foldl accum_step acc).2 k
      = acc.2 k + (l.filter fun p => p.2 = k).length
  | [], acc => by simp
  | p :: l, acc => by
    rw [List.foldl_cons, cluster_accum_go_cnt k l (accum_step acc p)]
    by_cases hp : p.2 = k
    · subst hp
      simp [accum_step, List.filter_cons]
      omega
    · simp [accum_step, Function.update_apply, hp, Ne.symm hp,
        List.filter_cons]

/-- `update_centroids` acts on each centroid as the damped move to the
cluster mean when the cluster is nonempty, and as the identity
otherwise. -/
lemma update_centroids_apply (obs : List (ℤ × ℤ)) (assign : List (Fin 4))
    (cent : Fin 4 → ℚ × ℚ) (k : Fin 4) :
    (update_centroids obs assign cent).2 k =
      if (assigned_obs obs assign k).length ≠ 0 then
        (7/10 * (cluster_mean obs assign k).1 + 3/10 * (cent k).1,
         7/10 * (cluster_mean obs assign k).2 + 3/10 * (cent k).2)
      else cent k := by
  have h1 := cluster_accum_go_x k (obs.zip assign)
      (fun _ => ((0 : ℚ), (0 : ℚ)), fun _ => (0 : ℕ))
  have h2 := cluster_accum_go_y k (obs.zip assign)
      (fun _ => ((0 : ℚ), (0 : ℚ)), fun _ => (0 : ℕ))
  have h3 := cluster_accum_go_cnt k (obs.zip assign)
      (fun _ => ((0 : ℚ), (0 : ℚ)), fun _ => (0 : ℕ))
  simp only [update_centroids, cluster_accum, cluster_mean, assigned_obs] at *
  rw [h1, h2, h3]
  simp only [zero_add, Nat.zero_add]

/-- C3: in every update step, a centroid with at least one assigned
observation moves to exactly `0.7 × mean + 0.3 × old` componentwise,
and a centroid with no assigned observation is unchanged. -/
theorem update_centroids_damped_update (obs : List (ℤ × ℤ))
    (assign : List (Fin 4)) (cent : Fin 4 → ℚ × ℚ) (k : Fin 4) :
    (assigned_obs obs assign k ≠ [] →
      (update_centroids obs assign cent).2 k =
        (7/10 * (cluster_mean obs assign k).1 + 3/10 * (cent k).1,
         7/10 * (cluster_mean obs assign k).2 + 3/10 * (cent k).2)) ∧
    (assigned_obs obs assign k = [] →
      (update_centroids obs assign cent).2 k = cent k) := by
  constructor <;> intro h <;> rw [update_centroids_apply] <;> simp [h]

/-- Witness for `update_centroids_damped_update`: two observations both
assigned to cluster 0 move centroid 0 to the damped mean, and cluster 1,
with no member, does not move. -/
theorem update_centroids_damped_update_witness :
    (update_centroids [((0 : ℤ), (0 : ℤ)), (2, 4)] [0, 0] centroids_init).2 0
      = (7/10 * (cluster_mean [((0 : ℤ), (0 : ℤ)), (2, 4)] [0, 0] 0).1
            + 3/10 * (centroids_init 0).1,
         7/10 * (cluster_mean [((0 : ℤ), (0 : ℤ)), (2, 4)] [0, 0] 0).2
            + 3/10 * (centroids_init 0).2) ∧
    (update_centroids [((0 : ℤ), (0 : ℤ)), (2, 4)] [0, 0] centroids_init).2 1
      = centroids_init 1 :=
  ⟨(update_centroids_damped_update [((0 : ℤ), (0 : ℤ)), (2, 4)] [0, 0]
      centroids_init 0).1 (by with_unfolding_all decide),
   (update_centroids_damped_update [((0 : ℤ), (0 : ℤ)), (2, 4)] [0, 0]
      centroids_init 1).2 (by with_unfolding_all decide)⟩

/-- C9: under the 0.7/0.3 damping, the squared displacement of a
centroid with assigned observations equals `(0.7)² = 49/100` times the
squared distance from its old position to the raw cluster mean; hence
the displacement never exceeds that distance, and is strictly smaller
whenever the centroid actually moves (mean distinct from old
position).  (Stated on squared distances; `sqrt` is monotone, so the
same relations hold for the plain Euclidean magnitudes, with the factor
becoming 0.7.) -/
theorem update_centroids_displacement_bound (obs : List (ℤ × ℤ))
    (assign : List (Fin 4)) (cent : Fin 4 → ℚ × ℚ) (k : Fin 4)
    (h : assigned_obs obs assign k ≠ []) :
    euclidean_dist_sq (cent k).1 (cent k).2
        ((update_centroids obs assign cent).2 k).1
        ((update_centroids obs assign cent).2 k).2
      = 49/100 * euclidean_dist_sq (cent k).1 (cent k).2
          (cluster_mean obs assign k).1 (cluster_mean obs assign k).2 ∧
    euclidean_dist_sq (cent k).1 (cent k).2
        ((update_centroids obs assign cent).2 k).1
        ((update_centroids obs assign cent).2 k).2
      ≤ euclidean_dist_sq (cent k).1 (cent k).2
          (cluster_mean obs assign k).1 (cluster_mean obs assign k).2 ∧
    (cluster_mean obs assign k ≠ cent k →
      euclidean_dist_sq (cent k).1 (cent k).2
          ((update_centroids obs assign cent).2 k).1
          ((update_centroids obs assign cent).2 k).2
        < euclidean_dist_sq (cent k).1 (cent k).2
            (cluster_mean obs assign k).1 (cluster_mean obs assign k).2) := by
  have hlen : (assigned_obs obs assign k).length ≠ 0 := by
    simpa [List.length_eq_zero] using h
  rw [update_centroids_apply]
  rw [if_pos hlen]
  refine ⟨?_, ?_, ?_⟩
  · unfold euclidean_dist_sq
    dsimp only
    ring
  · have hd := euclidean_dist_sq_nonneg (cent k).1 (cent k).2
      (cluster_mean obs assign k).1 (cluster_mean obs assign k).2
    unfold euclidean_dist_sq at *
    dsimp only at *
    nlinarith
  · intro hne
    have hd : 0 < euclidean_dist_sq (cent k).1 (cent k).2
        (cluster_mean obs assign k).1 (cluster_mean obs assign k).2 := by
      apply euclidean_dist_sq_pos
      intro he
      apply hne
      have h1 : (cluster_mean obs assign k).1 = (cent k).1 :=
        (Prod.mk.injEq _ _ _ _).mp he |>.1 |>.symm
      have h2 : (cluster_mean obs assign k).2 = (cent k).2 :=
        (Prod.mk.injEq _ _ _ _).mp he |>.2 |>.symm
      exact Prod.ext h1 h2
    unfold euclidean_dist_sq at *
    dsimp only at *
    nlinarith

/-- Witness for `update_centroids_displacement_bound`: with both sample
observations in cluster 0 and the initial centroid state, the damped
displacement is strictly below the old-to-mean distance. -/
theorem update_centroids_displacement_bound_witness :
    euclidean_dist_sq (centroids_init 0).1 (centroids_init 0).2
        ((update_centroids [((0 : ℤ), (0 : ℤ)), (2, 4)] [0, 0] centroids_init).2 0).1
        ((update_centroids [((0 : ℤ), (0 : ℤ)), (2, 4)] [0, 0] centroids_init).2 0).2
      < euclidean_dist_sq (centroids_init 0).1 (centroids_init 0).2
          (cluster_mean [((0 : ℤ), (0 : ℤ)), (2, 4)] [0, 0] 0).1
          (cluster_mean [((0 : ℤ), (0 : ℤ)), (2, 4)] [0, 0] 0).2 :=
  ((update_centroids_displacement_bound [((0 : ℤ), (0 : ℤ)), (2, 4)] [0, 0]
      centroids_init 0 (by with_unfolding_all decide)).2.2
    (by with_unfolding_all decide))

/-! ### Degenerate calls: claim C10 -/

/-- C10: every degenerate call of `perform_clustering` (non-positive
count, missing input array, missing or under-100-byte output region)
and every call whose assignments allocation fails leaves the
four-centroid state completely unchanged. -/
theorem perform_clustering_degenerate_frame (count : ℤ)
    (points wallets : Option (List ℤ)) (bufPresent : Bool) (bufSize : ℤ)
    (allocOk : Bool) (cent : Fin 4 → ℚ × ℚ) (k : Fin 4)
    (h : count ≤ 0 ∨ points = none ∨ wallets = none ∨ bufPresent = false ∨
      bufSize < 100 ∨ allocOk = false) :
    (perform_clustering count points wallets bufPresent bufSize allocOk
      cent).2 k = cent k := by
  unfold perform_clustering
  split_ifs with h1 h2 h3
  · rfl
  · rfl
  · rfl
  · rcases h with h | h | h | h | h | h
    · exact absurd (Or.inl h) h1
    · exact absurd (Or.inr (Or.inl h)) h1
    · exact absurd (Or.inr (Or.inr (Or.inl h))) h1
    · exact absurd (Or.inr (Or.inr (Or.inr (Or.inl h)))) h1
    · exact absurd (Or.inr (Or.inr (Or.inr (Or.inr h)))) h1
    · exact absurd h h3

/-- Witness for `perform_clustering_degenerate_frame`: a call with
negative count, null arrays and no output buffer leaves centroid 2 in
place. -/
theorem perform_clustering_degenerate_frame_witness :
    (perform_clustering (-1) none none false 0 true centroids_init).2 2
      = centroids_init 2 :=
  perform_clustering_degenerate_frame (-1) none none false 0 true
    centroids_init 2 (by decide)

/-! ### Serialized output: claim C1 -/

lemma rest_len_nonneg : ∀ rs : List ClusterRecord, 0 ≤ rest_len rs
  | [] => le_refl 0
  | r :: rest => by
    rw [rest_len]
    have h1 := rest_len_nonneg rest
    have h2 : (0 : ℤ) ≤ ((record_json r).length : ℤ) := Int.natCast_nonneg _
    split_ifs <;> omega

/-- When the output region leaves at least 151 bytes of headroom beyond
the serialized payload, the emission loop of `perform_clustering`
serializes every record. -/
lemma emit_records_all (bufSize : ℤ) (rs : List ClusterRecord) :
    ∀ offset : ℤ, offset + rest_len rs + 151 ≤ bufSize →
      emit_records bufSize rs offset = rs := by
  induction rs with
  | nil => intro offset h; rfl
  | cons r rest ih =>
    intro offset h
    rw [rest_len] at h
    have hnn : 0 ≤ rest_len rest := rest_len_nonneg rest
    have hw : (0 : ℤ) ≤ ((record_json r).length : ℤ) := Int.natCast_nonneg _
    by_cases hre : rest.isEmpty
    · have hrest : rest = [] := List.isEmpty_iff.mp hre
      subst hrest
      simp only [List.isEmpty_nil, if_true, rest_len, add_zero] at h
      rw [emit_records]
      rw [if_pos (by omega), if_pos (by omega)]
      rfl
    · rw [if_neg hre] at h
      rw [emit_records]
      rw [if_pos (by omega), if_pos (by omega),
        if_pos ⟨by simpa using hre, by omega⟩]
      rw [ih (offset + ((record_json r).length : ℤ) + 1) (by omega)]

/-- The k-means loop, run with at least one round of fuel, leaves an
assignment array of the same length as the observation list. -/
lemma kmeans_loop_assign_length (obs : List (ℤ × ℤ)) :
    ∀ (fuel : ℕ) (cent : Fin 4 → ℚ × ℚ) (a : List (Fin 4)),
    (kmeans_loop obs (fuel + 1) cent a).2.length = obs.length
  | 0, cent, a => by
    rw [kmeans_loop]
    split
    · simp [assign_clusters]
    · rw [kmeans_loop]
      simp [assign_clusters]
  | fuel + 1, cent, a => by
    rw [kmeans_loop]
    split
    · simp [assign_clusters]
    · exact kmeans_loop_assign_length obs fuel _ _

lemma seg_obs_length (count : ℤ) (pts ws : List ℤ)
    (hp : (pts.length : ℤ) = count) (hw : (ws.length : ℤ) = count) :
    (seg_obs count pts ws).length = count.toNat := by
  simp only [seg_obs, List.length_take, List.length_zip]
  omega

lemma seg_assign_length (count : ℤ) (pts ws : List ℤ)
    (cent : Fin 4 → ℚ × ℚ) :
    (seg_final count pts ws cent).2.length = (seg_obs count pts ws).length := by
  unfold seg_final
  exact kmeans_loop_assign_length _ 49 _ _

lemma seg_records_length (count : ℤ) (pts ws : List ℤ)
    (cent : Fin 4 → ℚ × ℚ)
    (hp : (pts.length : ℤ) = count) (hw : (ws.length : ℤ) = count) :
    (seg_records count pts ws cent).length = count.toNat := by
  have h1 := seg_obs_length count pts ws hp hw
  have h2 := seg_assign_length count pts ws cent
  simp only [seg_records, records_of, List.length_map, List.length_zip]
  omega

lemma cluster_names_mem (k : Fin 4) :
    cluster_names k ∈ (["Bronze", "Silver", "Gold", "Titanium"] : List String) := by
  fin_cases k <;> decide

/-- C1: a non-degenerate call of `perform_clustering` with a large
enough output region serializes exactly `count` records, one per input
observation and in input order, each carrying its observation's
coordinates, the tier name obtained from the assignment through the
frozen `cluster_names` mapping (hence a name in the fixed four-element
set), and the churn value of the observation's wallet balance. -/
theorem perform_clustering_record_payload (count : ℤ) (pts ws : List ℤ)
    (bufSize : ℤ) (cent : Fin 4 → ℚ × ℚ)
    (hc : 1 ≤ count) (hp : (pts.length : ℤ) = count)
    (hw : (ws.length : ℤ) = count) (hb : 100 ≤ bufSize)
    (hroom : 152 + rest_len (seg_records count pts ws cent) ≤ bufSize) :
    (perform_clustering count (some pts) (some ws) true bufSize true cent).1
      = some (seg_records count pts ws cent) ∧
    (seg_records count pts ws cent).length = count.toNat ∧
    (∀ r ∈ seg_records count pts ws cent,
      r.cluster ∈ (["Bronze", "Silver", "Gold", "Titanium"] : List String)) ∧
    (∀ i, i < count.toNat →
      ((seg_records count pts ws cent).getD i default).x = pts.getD i 0 ∧
      ((seg_records count pts ws cent).getD i default).y = ws.getD i 0 ∧
      ((seg_records count pts ws cent).getD i default).churn
        = calculate_churn_risk (ws.getD i 0) ∧
      ((seg_records count pts ws cent).getD i default).cluster
        = cluster_names ((seg_final count pts ws cent).2.getD i 0)) := by
  have hoL := seg_obs_length count pts ws hp hw
  have haL := seg_assign_length count pts ws cent
  have hrL := seg_records_length count pts ws cent hp hw
  refine ⟨?_, hrL, ?_, ?_⟩
  · unfold perform_clustering
    rw [if_neg, if_neg (by simp)]
    · simp only [Option.getD_some]
      rw [emit_records_all bufSize _ 1 (by omega)]
    · push_neg
      refine ⟨by omega, by simp, by simp, by simp, by omega⟩
  · intro r hr
    unfold seg_records records_of at hr
    rcases List.mem_map.mp hr with ⟨p, hpmem, hpr⟩
    rw [← hpr]
    exact cluster_names_mem p.2
  · intro i hi
    have hi' : i < (seg_records count pts ws cent).length := by omega
    have hiz : i < ((seg_obs count pts ws).zip
        (seg_final count pts ws cent).2).length := by
      simp only [List.length_zip]
      omega
    have hio : i < (seg_obs count pts ws).length := by omega
    have hia : i < (seg_final count pts ws cent).2.length := by omega
    have hip : i < pts.length := by omega
    have hiw : i < ws.length := by omega
    rw [List.getD_eq_getElem _ _ hi', List.getD_eq_getElem _ _ hip,
      List.getD_eq_getElem _ _ hiw, List.getD_eq_getElem _ _ hia]
    simp only [seg_records, records_of, List.getElem_map, List.getElem_zip,
      seg_obs, List.getElem_take, mk_record]
    simp

/-- Witness for `perform_clustering_record_payload`: one observation
(30, 30) with a 300-byte output region. -/
theorem perform_clustering_record_payload_witness :
    (perform_clustering 1 (some [30]) (some [30]) true 300 true
        centroids_init).1
      = some (seg_records 1 [30] [30] centroids_init) ∧
    (seg_records 1 [30] [30] centroids_init).length = (1 : ℤ).toNat ∧
    (∀ r ∈ seg_records 1 [30] [30] centroids_init,
      r.cluster ∈ (["Bronze", "Silver", "Gold", "Titanium"] : List String)) ∧
    (∀ i, i < (1 : ℤ).toNat →
      ((seg_records 1 [30] [30] centroids_init).getD i default).x
        = ([(30 : ℤ)]).getD i 0 ∧
      ((seg_records 1 [30] [30] centroids_init).getD i default).y
        = ([(30 : ℤ)]).getD i 0 ∧
      ((seg_records 1 [30] [30] centroids_init).getD i default).churn
        = calculate_churn_risk (([(30 : ℤ)]).getD i 0) ∧
      ((seg_records 1 [30] [30] centroids_init).getD i default).cluster
        = cluster_names ((seg_final 1 [30] [30] centroids_init).2.getD i 0)) :=
  perform_clustering_record_payload 1 [30] [30] 300 centroids_init
    (by decide) (by decide) (by decide) (by decide)
    (by with_unfolding_all decide)

/-! ### Route helper lemmas -/

lemma mem_range_drop (count m j : ℕ) :
    j ∈ (List.range count).drop m ↔ m ≤ j ∧ j < count := by
  constructor
  · intro h
    have h2 : j ∈ List.range count := List.mem_of_mem_drop h
    rw [List.mem_range] at h2
    rcases List.getElem_of_mem h with ⟨i, hi, hget⟩
    rw [List.getElem_drop, List.getElem_range] at hget
    omega
  · intro hmj
    have hlen2 : j - m < ((List.range count).drop m).length := by
      simp
      omega
    have hget : ((List.range count).drop m)[j - m] = j := by
      rw [List.getElem_drop, List.getElem_range]
      omega
    rw [← hget]
    exact List.getElem_mem _

/-- A duplicate-free list of `count` values below `count` is a
permutation of `range count`. -/
lemma perm_range_of (l : List ℕ) (count : ℕ) (hnd : l.Nodup)
    (hlt : ∀ x ∈ l, x < count) (hlen : l.length = count) :
    l.Perm (List.range count) := by
  have hsub : l ⊆ List.range count := fun x hx => List.mem_range.mpr (hlt x hx)
  exact (hnd.subperm hsub).perm_of_length_le (by simp [hlen])

/-- A 2-opt segment reversal is a permutation of the unswapped route. -/
lemma two_opt_swap_perm (route : List ℕ) (i j : ℕ) (hij : i ≤ j)
    (hj : j < route.length) :
    (two_opt_swap route i j).Perm route := by
  unfold two_opt_swap
  conv_rhs =>
    rw [← List.take_append_drop i route,
      ← List.take_append_drop (j + 1 - i) (route.drop i)]
  rw [List.drop_drop]
  have hidx : i + (j + 1 - i) = j + 1 := by omega
  rw [hidx, List.append_assoc]
  exact (((route.drop i).take (j + 1 - i)).reverse_perm.append_right
    _).append_left _

lemma swap_pairs_mem (count : ℕ) (p : ℕ × ℕ) (h : p ∈ swap_pairs count) :
    1 ≤ p.1 ∧ p.1 < p.2 ∧ p.2 < count := by
  unfold swap_pairs at h
  rcases List.mem_flatMap.mp h with ⟨i, hi, hj⟩
  rcases List.mem_map.mp hj with ⟨j, hjmem, hpj⟩
  rw [mem_range_drop] at hi
  rw [mem_range_drop] at hjmem
  rw [← hpj]
  omega

lemma nn_scan_step_some (d : ℕ → ℕ → ℚ) (cur : ℕ) (visited : List ℕ)
    (acc : Option (ℕ × ℚ)) (j : ℕ) (h : acc ≠ none) :
    nn_scan_step d cur visited acc j ≠ none := by
  cases acc with
  | none => exact absurd rfl h
  | some nm =>
    unfold nn_scan_step
    dsimp only
    split_ifs <;> simp

lemma nn_scan_step_some_unvisited (d : ℕ → ℕ → ℚ) (cur : ℕ)
    (visited : List ℕ) (acc : Option (ℕ × ℚ)) (j : ℕ) (h : j ∉ visited) :
    nn_scan_step d cur visited acc j ≠ none := by
  unfold nn_scan_step
  rw [if_pos h]
  cases acc with
  | none => simp
  | some nm =>
    dsimp only
    split_ifs <;> simp

lemma nn_scan_foldl_some (d : ℕ → ℕ → ℚ) (cur : ℕ) (visited : List ℕ) :
    ∀ (l : List ℕ) (acc : Option (ℕ × ℚ)), acc ≠ none →
      l.foldl (nn_scan_step d cur visited) acc ≠ none
  | [], _, h => h
  | j :: l, acc, h =>
    nn_scan_foldl_some d cur visited l _ (nn_scan_step_some d cur visited acc j h)

lemma nn_scan_foldl_reaches (d : ℕ → ℕ → ℚ) (cur : ℕ) (visited : List ℕ) :
    ∀ (l : List ℕ) (acc : Option (ℕ × ℚ)) (j : ℕ), j ∈ l → j ∉ visited →
      l.foldl (nn_scan_step d cur visited) acc ≠ none
  | [], _, j, hj, _ => absurd hj (List.not_mem_nil j)
  | a :: l, acc, j, hj, hnv => by
    rw [List.foldl_cons]
    rcases List.mem_cons.mp hj with hja | hjl
    · subst hja
      exact nn_scan_foldl_some d cur visited l _
        (nn_scan_step_some_unvisited d cur visited acc j hnv)
    · exact nn_scan_foldl_reaches d cur visited l _ j hjl hnv

/-- Whatever the inner scan returns is an unvisited node index in
`[1, count)`. -/
lemma nearest_unvisited_sound (d : ℕ → ℕ → ℚ) (cur : ℕ) (visited : List ℕ)
    (count : ℕ) (nm : ℕ × ℚ)
    (h : nearest_unvisited d cur visited count = some nm) :
    nm.1 ∉ visited ∧ 1 ≤ nm.1 ∧ nm.1 < count := by
  have hmain : ∀ pm : ℕ × ℚ, ((List.range count).drop 1).foldl
      (nn_scan_step d cur visited) none = some pm →
      pm.1 ∉ visited ∧ pm.1 ∈ (List.range count).drop 1 :=
    @List.foldlRecOn _ _
      (fun o => ∀ pm : ℕ × ℚ, o = some pm →
        pm.1 ∉ visited ∧ pm.1 ∈ (List.range count).drop 1)
      ((List.range count).drop 1) (nn_scan_step d cur visited) none
      (fun pm hpm => absurd hpm (by simp))
      (by
        intro b hb a ha pm hpm
        cases b with
        | none =>
          unfold nn_scan_step at hpm
          dsimp only at hpm
          by_cases hv : a ∈ visited
          · rw [if_neg (not_not_intro hv)] at hpm
            simp at hpm
          · rw [if_pos hv] at hpm
            cases hpm
            exact ⟨hv, ha⟩
        | some qm =>
          unfold nn_scan_step at hpm
          dsimp only at hpm
          by_cases hv : a ∈ visited
          · rw [if_neg (not_not_intro hv)] at hpm
            exact hb pm hpm
          · rw [if_pos hv] at hpm
            by_cases hlt : d cur a < qm.2
            · rw [if_pos hlt] at hpm
              cases hpm
              exact ⟨hv, ha⟩
            · rw [if_neg hlt] at hpm
              exact hb pm hpm)
  rcases hmain nm h with ⟨h1, h2⟩
  rw [mem_range_drop] at h2
  exact ⟨h1, h2.1, h2.2⟩

/-- While an unvisited node in `[1, count)` exists, the inner scan finds
one (the `nearest = -1` fallthrough cannot fire). -/
lemma nearest_unvisited_some (d : ℕ → ℕ → ℚ) (cur : ℕ) (visited : List ℕ)
    (count : ℕ) (j : ℕ) (hj1 : 1 ≤ j) (hj2 : j < count) (hnv : j ∉ visited) :
    nearest_unvisited d cur visited count ≠ none := by
  unfold nearest_unvisited
  exact nn_scan_foldl_reaches d cur visited _ none j
    ((mem_range_drop count 1 j).mpr ⟨hj1, hj2⟩) hnv

/-- The greedy growth loop turns any partial route containing the hub
into a permutation of all node indices. -/
lemma nn_build_perm (d : ℕ → ℕ → ℚ) (count : ℕ) :
    ∀ (fuel : ℕ) (route : List ℕ), 0 ∈ route → route.Nodup →
      (∀ x ∈ route, x < count) → route.length + fuel = count →
      (nn_build d count fuel route).Perm (List.range count)
  | 0, route, _, hnd, hlt, hlen => by
    rw [nn_build]
    exact perm_range_of route count hnd hlt (by omega)
  | fuel + 1, route, h0, hnd, hlt, hlen => by
    have hex : ∃ j, 1 ≤ j ∧ j < count ∧ j ∉ route := by
      by_contra hno
      push_neg at hno
      have hsub : List.range count ⊆ route := by
        intro x hx
        rw [List.mem_range] at hx
        rcases Nat.eq_zero_or_pos x with hx0 | hx1
        · rw [hx0]; exact h0
        · exact hno x hx1 hx
      have hcount : count ≤ route.length := by
        have hle := ((List.nodup_range count).subperm hsub).length_le
        simpa using hle
      omega
    rcases hex with ⟨j, hj1, hj2, hjnv⟩
    have hne := nearest_unvisited_some d (route.getLastD 0) route count
      j hj1 hj2 hjnv
    rw [nn_build]
    cases hnu : nearest_unvisited d (route.getLastD 0) route count with
    | none => exact absurd hnu hne
    | some nm =>
      rcases nearest_unvisited_sound d _ route count nm hnu with
        ⟨hv, hn1, hncnt⟩
      apply nn_build_perm d count fuel (route ++ [nm.1])
      · simp [h0]
      · rw [List.nodup_append]
        refine ⟨hnd, List.nodup_singleton _, ?_⟩
        intro a ha hmem
        rw [List.mem_singleton] at hmem
        subst hmem
        exact hv ha
      · intro x hx
        rcases List.mem_append.mp hx with hx | hx
        · exact hlt x hx
        · rw [List.mem_singleton] at hx
          omega
      · simp only [List.length_append, List.length_singleton]
        omega

/-- The initial route — nearest-neighbor or the sequential fallback — is
a permutation of all node indices. -/
lemma initialize_route_perm (d : ℕ → ℕ → ℚ) (count : ℕ) (allocOk : Bool)
    (hc : 1 ≤ count) :
    (initialize_route_nearest_neighbor d count allocOk).Perm
      (List.range count) := by
  unfold initialize_route_nearest_neighbor
  split_ifs with h
  · exact List.Perm.refl _
  · apply nn_build_perm
    · exact List.mem_singleton_self 0
    · exact List.nodup_singleton 0
    · intro x hx
      rw [List.mem_singleton] at hx
      omega
    · simp only [List.length_singleton]
      omega

/-! ### 2-opt loop invariants -/

lemma clamp_stops_ge_two (n : ℤ) : 2 ≤ clamp_stops n := by
  unfold clamp_stops
  split_ifs <;> omega

lemma try_swap_route_perm (d : ℕ → ℕ → ℚ) (count : ℕ) (st : TwoOptState)
    (ij : ℕ × ℕ) (hmem : ij ∈ swap_pairs count)
    (hst : st.route.Perm (List.range count)) :
    (try_swap d st ij).route.Perm (List.range count) := by
  unfold try_swap
  split_ifs with h
  · rcases swap_pairs_mem count ij hmem with ⟨h1, h2, h3⟩
    have hlen : st.route.length = count := by
      rw [hst.length_eq, List.length_range]
    exact (two_opt_swap_perm st.route ij.1 ij.2 (by omega) (by omega)).trans hst
  · exact hst

lemma two_opt_pass_route_perm (d : ℕ → ℕ → ℚ) (count : ℕ) (st : TwoOptState)
    (hst : st.route.Perm (List.range count)) :
    (two_opt_pass d count st).route.Perm (List.range count) :=
  @List.foldlRecOn _ _ (fun st' : TwoOptState => st'.route.Perm (List.range count))
    (swap_pairs count) (try_swap d) { st with improved := false } hst
    (fun b hb ij hijmem => try_swap_route_perm d count b ij hijmem hb)

lemma two_opt_loop_route_perm (d : ℕ → ℕ → ℚ) (count : ℕ) :
    ∀ (fuel : ℕ) (st : TwoOptState) (iter : ℕ),
      st.route.Perm (List.range count) →
      (two_opt_loop d count fuel st iter).1.route.Perm (List.range count)
  | 0, st, iter, h => h
  | fuel + 1, st, iter, h => by
    rw [two_opt_loop]
    split_ifs with hi
    · exact two_opt_loop_route_perm d count fuel _ _
        (two_opt_pass_route_perm d count st h)
    · exact h

lemma try_swap_best_le (d : ℕ → ℕ → ℚ) (st : TwoOptState) (ij : ℕ × ℕ) :
    (try_swap d st ij).best ≤ st.best := by
  unfold try_swap
  split_ifs with h
  · dsimp only
    linarith
  · exact le_refl _

lemma two_opt_pass_best_le (d : ℕ → ℕ → ℚ) (count : ℕ) (st : TwoOptState) :
    (two_opt_pass d count st).best ≤ st.best :=
  @List.foldlRecOn _ _ (fun st' : TwoOptState => st'.best ≤ st.best)
    (swap_pairs count) (try_swap d) { st with improved := false } (le_refl _)
    (fun b hb ij _ => le_trans (try_swap_best_le d b ij) hb)

lemma two_opt_loop_best_le (d : ℕ → ℕ → ℚ) (count : ℕ) :
    ∀ (fuel : ℕ) (st : TwoOptState) (iter : ℕ),
      (two_opt_loop d count fuel st iter).1.best ≤ st.best
  | 0, _, _ => le_refl _
  | fuel + 1, st, iter => by
    rw [two_opt_loop]
    split_ifs with hi
    · exact le_trans (two_opt_loop_best_le d count fuel _ _)
        (two_opt_pass_best_le d count st)
    · exact le_refl _

/-! ### Claims C5, C6 and C7 -/

/-- C5: on every successful `optimize_route` call, the tour is a
permutation of all node indices at every stage: the nearest-neighbor
initial tour is one, every 2-opt segment reversal maps a tour to a
permutation of it, and the final stops sequence is one — in particular
no node is duplicated or dropped, and the hub (node 0) appears exactly
once. -/
theorem optimize_route_tour_permutation (d : ℕ → ℕ → ℚ) (num_stops : ℤ)
    (bufSize : ℤ) (nnAllocOk : Bool) (t : ℚ) (iters : ℕ) (stops : List ℕ)
    (hb : 100 ≤ bufSize)
    (h : optimize_route d num_stops true bufSize true nnAllocOk
      = RouteResult.ok t iters stops) :
    (initialize_route_nearest_neighbor d (clamp_stops num_stops)
      nnAllocOk).Perm (List.range (clamp_stops num_stops)) ∧
    (∀ (route : List ℕ) (i j : ℕ), i ≤ j → j < route.length →
      (two_opt_swap route i j).Perm route) ∧
    stops.Perm (List.range (clamp_stops num_stops)) ∧
    stops.count 0 = 1 := by
  have hc2 := clamp_stops_ge_two num_stops
  have hinit := initialize_route_perm d (clamp_stops num_stops) nnAllocOk
    (by omega)
  unfold optimize_route at h
  rw [if_neg (by push_neg; exact ⟨by simp, by omega⟩), if_neg (by simp)] at h
  cases h
  have hstops : (route_phase d (clamp_stops num_stops) nnAllocOk).1.route.Perm
      (List.range (clamp_stops num_stops)) := by
    unfold route_phase
    exact two_opt_loop_route_perm d (clamp_stops num_stops) 200 _ 0 hinit
  refine ⟨hinit, fun route i j hij hj => two_opt_swap_perm route i j hij hj,
    hstops, ?_⟩
  rw [hstops.count_eq]
  exact List.count_eq_one_of_mem (List.nodup_range _)
    (List.mem_range.mpr (by omega))

/-- Witness for `optimize_route_tour_permutation`: three stops at unit
pairwise distance. -/
theorem optimize_route_tour_permutation_witness :
    (initialize_route_nearest_neighbor (fun _ _ => 1) (clamp_stops 3)
      true).Perm (List.range (clamp_stops 3)) ∧
    (∀ (route : List ℕ) (i j : ℕ), i ≤ j → j < route.length →
      (two_opt_swap route i j).Perm route) ∧
    List.Perm [0, 1, 2] (List.range (clamp_stops 3)) ∧
    List.count 0 [0, 1, 2] = 1 :=
  optimize_route_tour_permutation (fun _ _ => 1) 3 200 true 3 1 [0, 1, 2]
    (by decide) (by with_unfolding_all decide)

/-- C6: the total distance reported by the 2-opt phase never exceeds the
total closed-tour distance of the nearest-neighbor initial tour for the
same node set, because a candidate is accepted only when it improves the
running best by more than 0.001. -/
theorem optimize_route_distance_monotone (d : ℕ → ℕ → ℚ) (num_stops : ℤ)
    (bufSize : ℤ) (nnAllocOk : Bool) (t : ℚ) (iters : ℕ) (stops : List ℕ)
    (hb : 100 ≤ bufSize)
    (h : optimize_route d num_stops true bufSize true nnAllocOk
      = RouteResult.ok t iters stops) :
    t ≤ calculate_route_distance d
      (initialize_route_nearest_neighbor d (clamp_stops num_stops)
        nnAllocOk) := by
  unfold optimize_route at h
  rw [if_neg (by push_neg; exact ⟨by simp, by omega⟩), if_neg (by simp)] at h
  cases h
  unfold route_phase
  exact two_opt_loop_best_le d (clamp_stops num_stops) 200 _ 0

/-- Witness for `optimize_route_distance_monotone`: three stops at unit
pairwise distance; the reported distance 3 equals the initial tour's. -/
theorem optimize_route_distance_monotone_witness :
    (3 : ℚ) ≤ calculate_route_distance (fun _ _ => 1)
      (initialize_route_nearest_neighbor (fun _ _ => 1) (clamp_stops 3)
        true) :=
  optimize_route_distance_monotone (fun _ _ => 1) 3 200 true 3 1 [0, 1, 2]
    (by decide) (by with_unfolding_all decide)

/-- C7: on working-buffer allocation failure, each engine writes its
structured payload instead of a partial computation: the segmentation
engine the empty-array payload `[]`, the route optimizer the error
payload; both calls return normally (the model is total). -/
theorem alloc_failure_structured_payload (count : ℤ) (pts ws : List ℤ)
    (bufSize : ℤ) (cent : Fin 4 → ℚ × ℚ) (d : ℕ → ℕ → ℚ) (num_stops : ℤ)
    (bufSize2 : ℤ) (nnAllocOk : Bool)
    (hc : 1 ≤ count) (hb : 100 ≤ bufSize) (hb2 : 100 ≤ bufSize2) :
    (perform_clustering count (some pts) (some ws) true bufSize false
      cent).1 = some [] ∧
    optimize_route d num_stops true bufSize2 false nnAllocOk
      = RouteResult.error "Memory allocation failed" := by
  constructor
  · unfold perform_clustering
    rw [if_neg (by push_neg; exact ⟨by omega, by simp, by simp, by simp,
      by omega⟩), if_pos rfl]
  · unfold optimize_route
    rw [if_neg (by push_neg; exact ⟨by simp, by omega⟩), if_pos rfl]

/-- Witness for `alloc_failure_structured_payload`: concrete calls with
failing allocations. -/
theorem alloc_failure_structured_payload_witness :
    (perform_clustering 1 (some [30]) (some [30]) true 200 false
      centroids_init).1 = some [] ∧
    optimize_route (fun _ _ => 1) 3 true 200 false true
      = RouteResult.error "Memory allocation failed" :=
  alloc_failure_structured_payload 1 [30] [30] 200 centroids_init
    (fun _ _ => 1) 3 200 true (by decide) (by decide) (by decide)

/-! ### 2-opt fixed point under convergence (claim C8) -/

lemma try_swap_cases (d : ℕ → ℕ → ℚ) (st : TwoOptState) (ij : ℕ × ℕ) :
    try_swap d st ij = st ∨ (try_swap d st ij).improved = true := by
  unfold try_swap
  split_ifs with h
  · right
    rfl
  · left
    rfl

lemma foldl_try_swap_improved_mono (d : ℕ → ℕ → ℚ) :
    ∀ (l : List (ℕ × ℕ)) (st : TwoOptState), st.improved = true →
      (l.foldl (try_swap d) st).improved = true
  | [], _, h => h
  | ij :: l, st, h => by
    rw [List.foldl_cons]
    apply foldl_try_swap_improved_mono d l
    rcases try_swap_cases d st ij with he | he
    · rw [he]
      exact h
    · exact he

/-- A fold of accept-if-better steps that ends with the `improved` flag
still clear accepted nothing: the state is exactly the input state. -/
lemma foldl_try_swap_unchanged (d : ℕ → ℕ → ℚ) :
    ∀ (l : List (ℕ × ℕ)) (st : TwoOptState),
      (l.foldl (try_swap d) st).improved = false →
      l.foldl (try_swap d) st = st
  | [], _, _ => rfl
  | ij :: l, st, h => by
    rw [List.foldl_cons] at h ⊢
    rcases try_swap_cases d st ij with he | he
    · rw [he] at h ⊢
      exact foldl_try_swap_unchanged d l st h
    · rw [foldl_try_swap_improved_mono d l _ he] at h
      simp at h

/-- A pass that reports no improvement did not touch the tour or the
best distance. -/
lemma two_opt_pass_stable (d : ℕ → ℕ → ℚ) (count : ℕ) (st : TwoOptState)
    (h : (two_opt_pass d count st).improved = false) :
    two_opt_pass d count st = { st with improved := false } :=
  foldl_try_swap_unchanged d (swap_pairs count) { st with improved := false } h

lemma two_opt_loop_of_unimproved (d : ℕ → ℕ → ℚ) (count : ℕ) (fuel : ℕ)
    (st : TwoOptState) (iter : ℕ) (h : st.improved = false) :
    two_opt_loop d count fuel st iter = (st, iter) := by
  cases fuel with
  | zero => rfl
  | succ n =>
    rw [two_opt_loop, if_neg (by simp [h])]

/-- Whenever the pass loop exits with the `improved` flag clear (exit by
convergence rather than by the 200-pass cap), its final state is a fixed
point of the pass. -/
lemma two_opt_loop_pass_fixed (d : ℕ → ℕ → ℚ) (count : ℕ) :
    ∀ (fuel : ℕ) (st : TwoOptState) (iter : ℕ), st.improved = true →
      (two_opt_loop d count fuel st iter).1.improved = false →
      two_opt_pass d count (two_opt_loop d count fuel st iter).1
        = (two_opt_loop d count fuel st iter).1
  | 0, st, iter, hst => by
    intro hres
    rw [two_opt_loop] at hres
    rw [hst] at hres
    simp at hres
  | fuel + 1, st, iter, hst => by
    intro hres
    rw [two_opt_loop, if_pos (by simp [hst])] at hres ⊢
    by_cases hp : (two_opt_pass d count st).improved = true
    · exact two_opt_loop_pass_fixed d count fuel _ _ hp hres
    · have hp2 : (two_opt_pass d count st).improved = false := by
        simpa using hp
      rw [two_opt_loop_of_unimproved d count fuel _ _ hp2] at hres ⊢
      have hstable := two_opt_pass_stable d count st hp2
      rw [hstable]
      calc two_opt_pass d count { st with improved := false }
          = two_opt_pass d count st := by
            cases st
            rfl
        _ = { st with improved := false } := hstable

/-- Whenever `optimize_route`'s 2-opt phase exits by convergence, its
returned tour is a fixed point of the whole pass loop: rerunning the
capped loop from the returned tour and distance executes one pass that
accepts no swap and returns the tour and distance unchanged. -/
lemma route_phase_fixed_point (d : ℕ → ℕ → ℚ) (count : ℕ)
    (nnAllocOk : Bool)
    (h : (route_phase d count nnAllocOk).1.improved = false) :
    (two_opt_loop d count 200
      { route := (route_phase d count nnAllocOk).1.route,
        best := (route_phase d count nnAllocOk).1.best,
        improved := true } 0).1
      = { route := (route_phase d count nnAllocOk).1.route,
          best := (route_phase d count nnAllocOk).1.best,
          improved := false } := by
  have hfix : two_opt_pass d count (route_phase d count nnAllocOk).1
      = (route_phase d count nnAllocOk).1 :=
    two_opt_loop_pass_fixed d count 200 _ 0 rfl h
  rcases hre : (route_phase d count nnAllocOk).1 with ⟨rr, rb, ri⟩
  rw [hre] at hfix h
  simp only at h
  subst h
  rw [show (200 : ℕ) = 199 + 1 from rfl, two_opt_loop, if_pos rfl]
  have hpass : two_opt_pass d count ⟨rr, rb, true⟩ = ⟨rr, rb, false⟩ := hfix
  rw [hpass, two_opt_loop_of_unimproved d count 199 _ 1 rfl]
